import Mathlib

/-!
Verification development for the InkOS conversation-context lifecycle core
(rollover engine, summarization cache, job store, provider router, daily
digest).  The shapes of the records mirror the TypeScript IPC contract in
ui/src/lib/api.ts and the SQLite schema in migrations/0001_init.sql and
migrations/0004_conversations_summaries.sql.  The Rust core behind the IPC
commands (core/src/api/v1.rs) is not part of the available sources, so the
operational definitions below are modelled from the specification text; each
such definition says so in its doc comment.
-/

/-- Summary row, mirroring the summaries table of
migrations/0004_conversations_summaries.sql and the SummaryRecord interface
of ui/src/lib/api.ts (id, target_type, target_id, version, body,
source_hash, model_id). -/
structure Summary where
  id : Nat
  target_type : String
  target_id : String
  version : Nat
  body : String
  source_hash : String
  model_id : String
  deriving Repr, DecidableEq

/-- State of the summarization cache: the summaries table rows in insertion
order together with the next fresh row id. -/
structure CacheState where
  summaries : List Summary
  nextId : Nat
  deriving Repr, DecidableEq

/-- All summary rows stored for one (target_type, target_id) pair, in
insertion order. -/
def targetSummaries (ss : List Summary) (tt ti : String) : List Summary :=
  ss.filter (fun s => s.target_type == tt && s.target_id == ti)

/-- Modelled from the spec: get_latest(target_type, target_id) of the
summarization cache (the Rust implementation is not under the available
sources).  Rows are only ever appended, so the most recently inserted row
for the target is the latest one; the schema keeps the index
idx_summaries_target_created on (target_type, target_id, created_at DESC)
for exactly this lookup, and the version invariant proved below makes the
last row also the highest-version row. -/
def get_latest (ss : List Summary) (tt ti : String) : Option Summary :=
  (targetSummaries ss tt ti).getLast?

/-- Version of the latest stored summary for the target, 0 when none is
stored. -/
def latest_version (ss : List Summary) (tt ti : String) : Nat :=
  match get_latest ss tt ti with
  | none => 0
  | some s => s.version

/-- Modelled from the spec: put(target_type, target_id, body, source_hash,
model_id) of the summarization cache inserts a new row with
version = latest + 1 (versions are per-target monotonic integers starting
at 1). -/
def put (c : CacheState) (tt ti body source_hash model_id : String) :
    CacheState × Summary :=
  let s : Summary :=
    { id := c.nextId, target_type := tt, target_id := ti,
      version := latest_version c.summaries tt ti + 1,
      body := body, source_hash := source_hash, model_id := model_id }
  (⟨c.summaries ++ [s], c.nextId + 1⟩, s)

/-- Result of get_or_create: the summary, the reused flag of the
SummaryRecord interface, and whether the generator (an AI invocation) was
actually run to produce it. -/
structure GetOrCreateResult where
  summary : Summary
  reused : Bool
  generator_called : Bool
  deriving Repr, DecidableEq

/-- Modelled from the spec: get_or_create(target_type, target_id,
source_hash, generator).  If the latest stored summary for the target has
the same source_hash as the material to be summarized it is returned
unchanged with reused = true and the generator is never called; otherwise
the generator output is stored as a new version and reused = false.  The
generator is opaque, so its output is passed in as a value and the
generator_called flag records the only branch that consumes it. -/
def getOrCreate (c : CacheState) (tt ti source_hash : String)
    (generated model_id : String) : CacheState × GetOrCreateResult :=
  match get_latest c.summaries tt ti with
  | some s =>
    if s.source_hash == source_hash then (c, ⟨s, true, false⟩)
    else
      let r := put c tt ti generated source_hash model_id
      (r.1, ⟨r.2, false, true⟩)
  | none =>
    let r := put c tt ti generated source_hash model_id
    (r.1, ⟨r.2, false, true⟩)

/-- One atomic operation against the summarization cache. -/
inductive CacheOp where
  | putOp (tt ti body source_hash model_id : String)
  | getOrCreateOp (tt ti source_hash generated model_id : String)
  deriving Repr

/-- Apply one cache operation to the cache state. -/
def applyCacheOp (c : CacheState) : CacheOp → CacheState
  | .putOp tt ti body source_hash model_id => (put c tt ti body source_hash model_id).1
  | .getOrCreateOp tt ti source_hash generated model_id =>
      (getOrCreate c tt ti source_hash generated model_id).1

/-- Cache states reachable from the empty store by any interleaving of
atomic put / get_or_create operations (each operation is the atomic unit
the spec requires concurrent writers to serialize to). -/
inductive CacheReachable : CacheState → Prop where
  | init : CacheReachable ⟨[], 0⟩
  | step {c : CacheState} (op : CacheOp) :
      CacheReachable c → CacheReachable (applyCacheOp c op)

/-- Versions of the summaries stored for one target, in insertion order. -/
def versionsOf (ss : List Summary) (tt ti : String) : List Nat :=
  (targetSummaries ss tt ti).map (fun s => s.version)

/-- Appending one summary row extends the per-target view by that row when
it matches the target and leaves the view unchanged otherwise. -/
theorem targetSummaries_append_single (ss : List Summary) (s : Summary)
    (tt ti : String) :
    targetSummaries (ss ++ [s]) tt ti =
      targetSummaries ss tt ti ++
        (if s.target_type == tt && s.target_id == ti then [s] else []) := by
  simp only [targetSummaries, List.filter_append, List.filter_singleton]
  cases h : (s.target_type == tt && s.target_id == ti) <;> simp [h]

/-- When the per-target versions are exactly 1..n, the latest stored version
is n. -/
theorem latest_version_of_versions (ss : List Summary) (tt ti : String)
    (n : Nat) (h : versionsOf ss tt ti = List.range' 1 n) :
    latest_version ss tt ti = n := by
  unfold latest_version get_latest
  cases n with
  | zero =>
    have hnil : targetSummaries ss tt ti = [] := by
      have := h
      simp only [versionsOf, List.range'] at this
      exact List.map_eq_nil_iff.mp this
    simp [hnil]
  | succ m =>
    have hlast : ((targetSummaries ss tt ti).map (fun s => s.version)).getLast?
        = some (1 + 1 * m) := by
      have hr : List.range' 1 (m + 1) = List.range' 1 m ++ [1 + 1 * m] :=
        List.range'_concat 1 m
      rw [show ((targetSummaries ss tt ti).map (fun s => s.version))
            = List.range' 1 (m + 1) from h, hr, List.getLast?_concat]
    rw [List.getLast?_map] at hlast
    cases hgl : (targetSummaries ss tt ti).getLast? with
    | none => rw [hgl] at hlast; simp at hlast
    | some s =>
      rw [hgl] at hlast
      simp only [Option.map_some'] at hlast
      have : s.version = 1 + 1 * m := Option.some.inj hlast
      simp [this, Nat.one_mul]
      omega

/-- A put preserves the gap-free version numbering of every target. -/
theorem versionsOf_put (c : CacheState) (tt' ti' b sh m tt ti : String)
    (ih : versionsOf c.summaries tt ti =
      List.range' 1 (targetSummaries c.summaries tt ti).length) :
    versionsOf (put c tt' ti' b sh m).1.summaries tt ti =
      List.range' 1 (targetSummaries (put c tt' ti' b sh m).1.summaries tt ti).length := by
  simp only [versionsOf, put] at ih ⊢
  rw [targetSummaries_append_single]
  by_cases hmatch : (tt' == tt && ti' == ti) = true
  · have htt : tt' = tt := by
      have := (Bool.and_eq_true _ _).mp hmatch
      exact eq_of_beq this.1
    have hti : ti' = ti := by
      have := (Bool.and_eq_true _ _).mp hmatch
      exact eq_of_beq this.2
    subst htt hti
    rw [if_pos hmatch]
    simp only [List.map_append, List.map_cons, List.map_nil, List.length_append,
      List.length_cons, List.length_nil]
    rw [ih, latest_version_of_versions c.summaries tt' ti'
      (targetSummaries c.summaries tt' ti').length ih]
    rw [List.range'_concat]
    simp [Nat.add_comm]
  · rw [if_neg hmatch]
    simpa using ih

/-- Claim C5: in every state of the summarization cache reachable by any
interleaving of atomic put / get_or_create operations, the versions stored
for a fixed (target_type, target_id) are exactly the strictly increasing,
gap-free, duplicate-free sequence 1, 2, ..., n in insertion order. -/
theorem summary_versions_invariant (c : CacheState) (hc : CacheReachable c)
    (tt ti : String) :
    versionsOf c.summaries tt ti =
      List.range' 1 (targetSummaries c.summaries tt ti).length := by
  induction hc with
  | init => rfl
  | @step c' op hc ih =>
    cases op with
    | putOp tt' ti' b sh m =>
      exact versionsOf_put _ tt' ti' b sh m tt ti ih
    | getOrCreateOp tt' ti' sh g m =>
      rcases hgl : get_latest c'.summaries tt' ti' with _ | s
      · simp only [applyCacheOp, getOrCreate, hgl]
        exact versionsOf_put _ tt' ti' g sh m tt ti ih
      · by_cases hsh : (s.source_hash == sh) = true
        · simp only [applyCacheOp, getOrCreate, hgl, hsh, if_true]
          exact ih
        · simp only [applyCacheOp, getOrCreate, hgl, hsh, if_false]
          exact versionsOf_put _ tt' ti' g sh m tt ti ih

/-- After a put, the latest summary for the target is exactly the row the
put inserted. -/
theorem get_latest_put (c : CacheState) (tt ti b sh m : String) :
    get_latest (put c tt ti b sh m).1.summaries tt ti =
      some (put c tt ti b sh m).2 := by
  simp only [get_latest, put]
  rw [targetSummaries_append_single]
  simp

/-- After any get_or_create call, the latest summary for the target is the
summary the call returned, and its source_hash is the hash the call was
given. -/
theorem getOrCreate_latest (c : CacheState) (tt ti sh g m : String) :
    get_latest (getOrCreate c tt ti sh g m).1.summaries tt ti =
      some (getOrCreate c tt ti sh g m).2.summary ∧
    (getOrCreate c tt ti sh g m).2.summary.source_hash = sh := by
  rcases hgl : get_latest c.summaries tt ti with _ | s
  · simp only [getOrCreate, hgl]
    exact ⟨get_latest_put c tt ti g sh m, rfl⟩
  · by_cases hsh : (s.source_hash == sh) = true
    · simp only [getOrCreate, hgl, hsh, if_true]
      exact ⟨trivial, eq_of_beq hsh⟩
    · simp only [getOrCreate, hgl, hsh, if_false]
      exact ⟨get_latest_put c tt ti g sh m, rfl⟩

/-- Claim C4: for a fixed target, a second get_or_create call whose
source_hash is unchanged returns the already-stored latest summary
unchanged with reused = true, does not run the generator, and leaves the
cache state untouched — so the generator runs at most once in total over
the two calls, and every further call repeats the second one verbatim. -/
theorem summary_reuse_no_second_generation (c : CacheState)
    (tt ti sh g m g2 m2 : String) :
    (getOrCreate (getOrCreate c tt ti sh g m).1 tt ti sh g2 m2).2.reused = true ∧
    (getOrCreate (getOrCreate c tt ti sh g m).1 tt ti sh g2 m2).2.generator_called = false ∧
    (getOrCreate (getOrCreate c tt ti sh g m).1 tt ti sh g2 m2).1 =
      (getOrCreate c tt ti sh g m).1 ∧
    (getOrCreate (getOrCreate c tt ti sh g m).1 tt ti sh g2 m2).2.summary =
      (getOrCreate c tt ti sh g m).2.summary ∧
    ((if (getOrCreate c tt ti sh g m).2.generator_called then 1 else 0) +
      (if (getOrCreate (getOrCreate c tt ti sh g m).1 tt ti sh g2 m2).2.generator_called
        then 1 else 0) ≤ 1) := by
  obtain ⟨hlatest, hhash⟩ := getOrCreate_latest c tt ti sh g m
  have hbeq : ((getOrCreate c tt ti sh g m).2.summary.source_hash == sh) = true :=
    beq_iff_eq.mpr hhash
  generalize hq : getOrCreate c tt ti sh g m = q at hlatest hbeq ⊢
  obtain ⟨c1, r1⟩ := q
  simp only [getOrCreate, hlatest, hbeq, if_true]
  refine ⟨trivial, trivial, trivial, trivial, ?_⟩
  cases h : r1.generator_called <;> simp

/-- A one-put cache state used to instantiate the reachability hypothesis
of the version invariant. -/
def demoCache : CacheState :=
  applyCacheOp ⟨[], 0⟩ (.putOp "conversation" "c1" "summary body" "hash0" "model0")

/-- Witness for claim C5: the invariant evaluated on a concrete reachable
cache state holding one summary for the target ("conversation", "c1"). -/
theorem summary_versions_invariant_witness :
    CacheReachable demoCache ∧
    versionsOf demoCache.summaries "conversation" "c1" =
      List.range' 1 (targetSummaries demoCache.summaries "conversation" "c1").length ∧
    versionsOf demoCache.summaries "conversation" "c1" = [1] :=
  ⟨CacheReachable.step _ CacheReachable.init,
   summary_versions_invariant demoCache
     (CacheReachable.step _ CacheReachable.init) "conversation" "c1",
   by decide⟩

/-- Durable job states, the closed set of the jobs table in
migrations/0001_init.sql (state TEXT NOT NULL DEFAULT queued). -/
inductive JobState where
  | queued
  | running
  | done
  | error
  deriving Repr, DecidableEq

/-- Job row, mirroring the jobs table of migrations/0001_init.sql with the
result column added by the later migration (id, kind, state, payload,
result, run_at). -/
structure Job where
  id : Nat
  kind : String
  state : JobState
  payload : String
  result : Option String
  run_at : Option Nat
  deriving Repr, DecidableEq

/-- State of the job store: the jobs table rows in insertion order together
with the next fresh row id. -/
structure JobStore where
  jobs : List Job
  nextId : Nat
  deriving Repr, DecidableEq

/-- Modelled from the spec: enqueue(kind, payload, run_at?) inserts a fresh
job in state queued and returns its id. -/
def enqueue (js : JobStore) (kind payload : String) (run_at : Option Nat) :
    JobStore × Nat :=
  (⟨js.jobs ++ [⟨js.nextId, kind, .queued, payload, none, run_at⟩], js.nextId + 1⟩,
   js.nextId)

/-- Modelled from the spec: claim_next(kind) finds a queued job of the
requested kind and performs the queued-to-running transition as one atomic
compare-and-set against the store (UPDATE guarded on id and on the row
still being queued), returning the claimed job. -/
def claim_next (js : JobStore) (kind : String) : Option Job × JobStore :=
  match js.jobs.find? (fun j => j.kind == kind && j.state == JobState.queued) with
  | none => (none, js)
  | some j =>
    (some { j with state := .running },
     ⟨js.jobs.map (fun x =>
        if x.id == j.id && x.state == JobState.queued
        then { x with state := .running } else x),
      js.nextId⟩)

/-- Modelled from the spec: complete(job_id, result) moves a running job to
done and records its result; it touches nothing else. -/
def complete (js : JobStore) (id : Nat) (result : String) : JobStore :=
  ⟨js.jobs.map (fun x =>
     if x.id == id && x.state == JobState.running
     then { x with state := .done, result := some result } else x),
   js.nextId⟩

/-- Modelled from the spec: fail(job_id, error) moves a running job to the
error state; the store does not auto-retry it. -/
def fail (js : JobStore) (id : Nat) : JobStore :=
  ⟨js.jobs.map (fun x =>
     if x.id == id && x.state == JobState.running
     then { x with state := .error } else x),
   js.nextId⟩

/-- Modelled from the spec: recover_orphans(), run once at process startup,
transitions every job left in running back to queued. -/
def recover_orphans (js : JobStore) : JobStore :=
  ⟨js.jobs.map (fun x =>
     if x.state == JobState.running then { x with state := .queued } else x),
   js.nextId⟩

/-- One atomic operation against the job store. -/
inductive JobOp where
  | enqueueOp (kind payload : String) (run_at : Option Nat)
  | claimNextOp (kind : String)
  | completeOp (id : Nat) (result : String)
  | failOp (id : Nat)
  | recoverOrphansOp
  deriving Repr, DecidableEq

/-- Apply one job-store operation to the store state. -/
def applyJobOp (js : JobStore) : JobOp → JobStore
  | .enqueueOp kind payload run_at => (enqueue js kind payload run_at).1
  | .claimNextOp kind => (claim_next js kind).2
  | .completeOp id result => complete js id result
  | .failOp id => fail js id
  | .recoverOrphansOp => recover_orphans js

/-- Claim C6: claim_next only ever returns a job that was queued in the
pre-state (never one already running), moves exactly that job to running in
the same atomic operation (no queued row with the claimed id survives), and
a second claim_next on the resulting store can never hand out the same job
again. -/
theorem claim_next_at_most_one_owner (js : JobStore) (k k2 : String)
    (j : Job) (js1 : JobStore) (h : claim_next js k = (some j, js1)) :
    j.state = .running ∧
    (∃ j0, js.jobs.find? (fun x => x.kind == k && x.state == JobState.queued) = some j0 ∧
      j0 ∈ js.jobs ∧ j0.state = .queued ∧ j = { j0 with state := .running }) ∧
    j ∈ js1.jobs ∧
    (∀ x ∈ js1.jobs, x.id = j.id → x.state ≠ JobState.queued) ∧
    (∀ j2 js2, claim_next js1 k2 = (some j2, js2) → j2.id ≠ j.id) := by
  unfold claim_next at h
  cases hf : js.jobs.find? (fun x => x.kind == k && x.state == JobState.queued) with
  | none => rw [hf] at h; simp at h
  | some j0 =>
    rw [hf] at h
    rw [Prod.mk.injEq] at h
    obtain ⟨hj, hjs1⟩ := h
    replace hj := Option.some.inj hj
    subst hj
    subst hjs1
    have hj0mem : j0 ∈ js.jobs := List.mem_of_find?_eq_some hf
    have hj0pred := List.find?_some hf
    have hj0queued : j0.state = .queued := by
      have := (Bool.and_eq_true _ _).mp hj0pred
      exact eq_of_beq this.2
    have hj0cond : (j0.id == j0.id && j0.state == JobState.queued) = true := by
      simp [hj0queued]
    refine ⟨rfl, ⟨j0, rfl, hj0mem, hj0queued, rfl⟩, ?_, ?_, ?_⟩
    · refine List.mem_map.mpr ⟨j0, hj0mem, ?_⟩
      simp only [hj0cond, if_true]
    · intro x hx hxid
      simp only [List.mem_map] at hx
      obtain ⟨y, hy, hyx⟩ := hx
      by_cases hcond : (y.id == j0.id && y.state == JobState.queued) = true
      · rw [if_pos hcond] at hyx
        rw [← hyx]
        simp
      · rw [if_neg hcond] at hyx
        subst hyx
        intro hstate
        apply hcond
        simp only [Bool.and_eq_true, beq_iff_eq]
        exact ⟨hxid, hstate⟩
    · intro j2 js2 h2
      unfold claim_next at h2
      cases hf2 : List.find? (fun x => x.kind == k2 && x.state == JobState.queued)
          (List.map (fun x => if (x.id == j0.id && x.state == JobState.queued) = true
            then { x with state := JobState.running } else x) js.jobs) with
      | none => rw [hf2] at h2; simp at h2
      | some j1 =>
        rw [hf2] at h2
        rw [Prod.mk.injEq] at h2
        obtain ⟨hj2, _⟩ := h2
        replace hj2 := Option.some.inj hj2
        subst hj2
        have hj1mem := List.mem_of_find?_eq_some hf2
        have hj1pred := List.find?_some hf2
        have hj1queued : j1.state = .queued := by
          have := (Bool.and_eq_true _ _).mp hj1pred
          exact eq_of_beq this.2
        simp only [List.mem_map] at hj1mem
        obtain ⟨y, hy, hyx⟩ := hj1mem
        by_cases hcond : (y.id == j0.id && y.state == JobState.queued) = true
        · rw [if_pos hcond] at hyx
          rw [← hyx] at hj1queued
          simp at hj1queued
        · rw [if_neg hcond] at hyx
          rw [hyx] at hcond
          have hyid : j1.id ≠ j0.id := by
            intro hid
            apply hcond
            simp only [Bool.and_eq_true, beq_iff_eq]
            exact ⟨hid, hj1queued⟩
          simpa using hyid

/-- Claim C7: every job-store operation moves every existing job only along
the one-directional edges queued to running (claim), running to done or
error (complete / fail), or leaves it in place, with the single exception
that recover_orphans moves a running job back to queued; in particular no
operation ever moves a job from done or error back to running. -/
theorem job_state_transitions_one_directional (js : JobStore) (op : JobOp) :
    ∀ j ∈ js.jobs, ∃ j', j' ∈ (applyJobOp js op).jobs ∧ j'.id = j.id ∧
      (j'.state = j.state ∨
       (j.state = .queued ∧ j'.state = .running) ∨
       (j.state = .running ∧ (j'.state = .done ∨ j'.state = .error)) ∨
       (op = .recoverOrphansOp ∧ j.state = .running ∧ j'.state = .queued)) := by
  intro j hj
  cases op with
  | enqueueOp kind payload run_at =>
    exact ⟨j, List.mem_append_left _ hj, rfl, Or.inl rfl⟩
  | claimNextOp kind =>
    simp only [applyJobOp, claim_next]
    cases hf : js.jobs.find? (fun x => x.kind == kind && x.state == JobState.queued) with
    | none => exact ⟨j, hj, rfl, Or.inl rfl⟩
    | some j0 =>
      by_cases hcond : (j.id == j0.id && j.state == JobState.queued) = true
      · refine ⟨{ j with state := .running }, ?_, rfl, ?_⟩
        · refine List.mem_map.mpr ⟨j, hj, ?_⟩
          simp only [hcond, if_true]
        · have hq : j.state = .queued := by
            have := (Bool.and_eq_true _ _).mp hcond
            exact eq_of_beq this.2
          exact Or.inr (Or.inl ⟨hq, rfl⟩)
      · refine ⟨j, ?_, rfl, Or.inl rfl⟩
        refine List.mem_map.mpr ⟨j, hj, ?_⟩
        simp [hcond]
  | completeOp id result =>
    simp only [applyJobOp, complete]
    by_cases hcond : (j.id == id && j.state == JobState.running) = true
    · refine ⟨{ j with state := .done, result := some result }, ?_, rfl, ?_⟩
      · refine List.mem_map.mpr ⟨j, hj, ?_⟩
        simp only [hcond, if_true]
      · have hr : j.state = .running := by
          have := (Bool.and_eq_true _ _).mp hcond
          exact eq_of_beq this.2
        exact Or.inr (Or.inr (Or.inl ⟨hr, Or.inl rfl⟩))
    · refine ⟨j, ?_, rfl, Or.inl rfl⟩
      refine List.mem_map.mpr ⟨j, hj, ?_⟩
      simp [hcond]
  | failOp id =>
    simp only [applyJobOp, fail]
    by_cases hcond : (j.id == id && j.state == JobState.running) = true
    · refine ⟨{ j with state := .error }, ?_, rfl, ?_⟩
      · refine List.mem_map.mpr ⟨j, hj, ?_⟩
        simp only [hcond, if_true]
      · have hr : j.state = .running := by
          have := (Bool.and_eq_true _ _).mp hcond
          exact eq_of_beq this.2
        exact Or.inr (Or.inr (Or.inl ⟨hr, Or.inr rfl⟩))
    · refine ⟨j, ?_, rfl, Or.inl rfl⟩
      refine List.mem_map.mpr ⟨j, hj, ?_⟩
      simp [hcond]
  | recoverOrphansOp =>
    simp only [applyJobOp, recover_orphans]
    by_cases hcond : (j.state == JobState.running) = true
    · refine ⟨{ j with state := .queued }, ?_, rfl, ?_⟩
      · refine List.mem_map.mpr ⟨j, hj, ?_⟩
        simp only [hcond, if_true]
      · refine Or.inr (Or.inr (Or.inr ⟨?_, eq_of_beq hcond, rfl⟩))
        trivial
    · refine ⟨j, ?_, rfl, Or.inl rfl⟩
      refine List.mem_map.mpr ⟨j, hj, ?_⟩
      simp [hcond]

/-- A two-job store used to instantiate the job-store theorems. -/
def demoJobStore : JobStore :=
  ⟨[⟨0, "summarize", .queued, "payload0", none, none⟩,
    ⟨1, "summarize", .queued, "payload1", none, none⟩], 2⟩

/-- The store after the first claim on demoJobStore. -/
def demoJobStore1 : JobStore :=
  ⟨[⟨0, "summarize", .running, "payload0", none, none⟩,
    ⟨1, "summarize", .queued, "payload1", none, none⟩], 2⟩

/-- The first claimed job of demoJobStore. -/
def demoClaim1 : Job := ⟨0, "summarize", .running, "payload0", none, none⟩

/-- The second claimed job of demoJobStore. -/
def demoClaim2 : Job := ⟨1, "summarize", .running, "payload1", none, none⟩

/-- The store after the second claim on demoJobStore. -/
def demoJobStore2 : JobStore :=
  ⟨[⟨0, "summarize", .running, "payload0", none, none⟩,
    ⟨1, "summarize", .running, "payload1", none, none⟩], 2⟩

/-- Witness for claim C6: on a concrete store with two queued summarize
jobs, two successive claims hand out two different jobs. -/
theorem claim_next_at_most_one_owner_witness :
    claim_next demoJobStore "summarize" = (some demoClaim1, demoJobStore1) ∧
    claim_next demoJobStore1 "summarize" = (some demoClaim2, demoJobStore2) ∧
    demoClaim2.id ≠ demoClaim1.id :=
  ⟨by decide, by decide,
   (claim_next_at_most_one_owner demoJobStore "summarize" "summarize"
     demoClaim1 demoJobStore1 (by decide)).2.2.2.2 demoClaim2 demoJobStore2 (by decide)⟩

/-- Witness for claim C7: the transition property evaluated for the first
job of the concrete store under a claim operation. -/
theorem job_state_transitions_witness :
    (⟨0, "summarize", JobState.queued, "payload0", none, none⟩ : Job) ∈ demoJobStore.jobs ∧
    (∃ j', j' ∈ (applyJobOp demoJobStore (.claimNextOp "summarize")).jobs ∧
      j'.id = (⟨0, "summarize", JobState.queued, "payload0", none, none⟩ : Job).id ∧
      (j'.state = JobState.queued ∨
       (JobState.queued = JobState.queued ∧ j'.state = .running) ∨
       (JobState.queued = JobState.running ∧ (j'.state = .done ∨ j'.state = .error)) ∨
       (JobOp.claimNextOp "summarize" = .recoverOrphansOp ∧
         JobState.queued = JobState.running ∧ j'.state = .queued))) :=
  ⟨by decide,
   job_state_transitions_one_directional demoJobStore (.claimNextOp "summarize")
     ⟨0, "summarize", JobState.queued, "payload0", none, none⟩ (by decide)⟩

/-- A decimal ratio such as the strings 0.75 and 0.9 stored for
ai.rollover.warn_ratio and ai.rollover.force_ratio in app_settings by
migrations/0004_conversations_summaries.sql: mantissa scaled by a power of
ten (0.75 is mantissa 75 with scale 2). -/
structure DecimalRatio where
  mantissa : Nat
  scale : Nat
  deriving Repr, DecidableEq

/-- Whether a token total has reached ratio times the context window:
total at or above (mantissa / 10^scale) times cw, compared exactly by
cross-multiplying so the test stays executable. -/
def DecimalRatio.reached (r : DecimalRatio) (total cw : Nat) : Bool :=
  decide (r.mantissa * cw ≤ total * 10 ^ r.scale)

/-- The cross-multiplied threshold test agrees with the rational-number
reading of the ratio. -/
theorem DecimalRatio.reached_iff_rat (r : DecimalRatio) (total cw : Nat) :
    r.reached total cw = true ↔
      ((r.mantissa : ℚ) / ((10 : ℚ) ^ r.scale)) * (cw : ℚ) ≤ (total : ℚ) := by
  unfold DecimalRatio.reached
  rw [decide_eq_true_eq]
  rw [div_mul_eq_mul_div, div_le_iff₀ (by positivity)]
  constructor
  · intro h; exact_mod_cast h
  · intro h; exact_mod_cast h

/-- The default warn ratio installed by the migration (the string 0.75). -/
def defaultWarnRatio : DecimalRatio := ⟨75, 2⟩

/-- The default force ratio installed by the migration (the string 0.9). -/
def defaultForceRatio : DecimalRatio := ⟨9, 1⟩

/-- Conversation row, mirroring the conversations table of
migrations/0004_conversations_summaries.sql and the ConversationRecord
interface of ui/src/lib/api.ts.  The predecessor field is the
back-reference to the rolled-over predecessor required by spec section 4.4
step 3; it is not surfaced in the TS record. -/
structure Conversation where
  id : Nat
  title : Option String
  provider_id : String
  model_id : String
  ctx_warn : Bool
  ctx_force : Bool
  total_tokens : Nat
  created_at : Nat
  updated_at : Nat
  closed_at : Option Nat
  predecessor : Option Nat
  deriving Repr, DecidableEq

/-- Message row, mirroring the messages table of
migrations/0004_conversations_summaries.sql and the MessageRecord
interface of ui/src/lib/api.ts. -/
structure Message where
  id : Nat
  conversation_id : Nat
  role : String
  body : String
  token_est : Nat
  created_at : Nat
  deriving Repr, DecidableEq

/-- Result of append_and_maybe_rollover, mirroring the AppendResult
interface of ui/src/lib/api.ts. -/
structure AppendResult where
  message : Message
  warn : Bool
  rolled : Bool
  new_conversation : Option Conversation
  summary : Option Summary
  total_tokens : Nat
  deriving Repr, DecidableEq

/-- Result of force_rollover, mirroring the RolloverOutcome interface of
ui/src/lib/api.ts. -/
structure RolloverOutcome where
  rolled : Bool
  new_conversation : Option Conversation
  summary : Option Summary
  deriving Repr, DecidableEq

/-- The error taxonomy of spec section 7 that the rollover engine can
surface on an append: validation, closed-conversation, and
rollover-overflow (message too large to fit a fresh context). -/
inductive ChatError where
  | validation (msg : String)
  | closedConversation
  | rolloverOverflow
  deriving Repr, DecidableEq

/-- Persistent chat state: the conversations, messages and summaries
tables in insertion order, plus the next fresh row id. -/
structure ChatState where
  conversations : List Conversation
  messages : List Message
  summaries : List Summary
  nextId : Nat
  deriving Repr, DecidableEq

/-- Configuration and opaque externals read at the start of each operation:
the token estimator and summary generator are opaque external calls, the
ratios and summarizer model come from app_settings, the context window
from the active model. -/
structure Env where
  tokenEst : String → Nat
  hashMessages : List Message → String
  generateSummary : List Message → String
  warnRatio : DecimalRatio
  forceRatio : DecimalRatio
  contextWindow : Nat
  summarizerModel : String
  now : Nat

/-- The conversation row with the given id (the first match, as a primary
key lookup). -/
def findConv (st : ChatState) (cid : Nat) : Option Conversation :=
  st.conversations.find? (fun c => c.id == cid)

/-- The messages of one conversation in insertion order. -/
def convMessages (st : ChatState) (cid : Nat) : List Message :=
  st.messages.filter (fun m => m.conversation_id == cid)

/-- Modelled from the spec: append_and_maybe_rollover(conversation_id,
content, role), the single externally visible entry point of the rollover
engine (the Rust implementation behind the chat_append_and_maybe_rollover
IPC command declared in ui/src/lib/api.ts is not under the available
sources).  An unknown conversation is a validation error; a conversation
with ctx_force set rejects the append with a closed-conversation error; if
the new total reaches force_ratio times the context window the engine
summarizes the history through the cache, creates a successor, closes the
predecessor and re-applies the triggering message to the successor, erroring
instead when the single message alone would already reach the force
threshold of a fresh conversation; otherwise the message is appended in
place and ctx_warn tracks the warn threshold. -/
def appendAndMaybeRollover (env : Env) (st : ChatState) (cid : Nat)
    (content role : String) : Except ChatError (ChatState × AppendResult) :=
  match findConv st cid with
  | none => .error (.validation "unknown conversation")
  | some conv =>
    if conv.ctx_force then .error .closedConversation
    else
      let tokens := env.tokenEst content
      let newTotal := conv.total_tokens + tokens
      if env.forceRatio.reached newTotal env.contextWindow then
        if env.forceRatio.reached tokens env.contextWindow then
          .error .rolloverOverflow
        else
          let material := convMessages st cid
          let cres := getOrCreate ⟨st.summaries, st.nextId⟩ "conversation"
            (toString cid) (env.hashMessages material)
            (env.generateSummary material) env.summarizerModel
          let succId := cres.1.nextId
          let successor : Conversation :=
            { id := succId, title := conv.title, provider_id := conv.provider_id,
              model_id := conv.model_id, ctx_warn := false, ctx_force := false,
              total_tokens := tokens, created_at := env.now, updated_at := env.now,
              closed_at := none, predecessor := some cid }
          let msg : Message :=
            { id := succId + 1, conversation_id := succId, role := role,
              body := content, token_est := tokens, created_at := env.now }
          .ok (⟨st.conversations.map (fun c =>
                  if c.id == cid
                  then { c with ctx_force := true, closed_at := some env.now,
                                updated_at := env.now }
                  else c) ++ [successor],
                st.messages ++ [msg],
                cres.1.summaries,
                succId + 2⟩,
               { message := msg, warn := conv.ctx_warn, rolled := true,
                 new_conversation := some successor, summary := some cres.2.summary,
                 total_tokens := tokens })
      else
        let warned := env.warnRatio.reached newTotal env.contextWindow
        let msg : Message :=
          { id := st.nextId, conversation_id := cid, role := role,
            body := content, token_est := tokens, created_at := env.now }
        .ok (⟨st.conversations.map (fun c =>
                if c.id == cid
                then { c with total_tokens := newTotal, ctx_warn := warned,
                              updated_at := env.now }
                else c),
              st.messages ++ [msg],
              st.summaries,
              st.nextId + 1⟩,
             { message := msg, warn := warned, rolled := false,
               new_conversation := none, summary := none,
               total_tokens := newTotal })

/-- Modelled from the spec: force_rollover(conversation_id) performs the
same rollover transition regardless of threshold, or is a no-op with
rolled = false when the conversation is missing, already closed, or holds
no content worth summarizing. -/
def force_rollover (env : Env) (st : ChatState) (cid : Nat) :
    ChatState × RolloverOutcome :=
  match findConv st cid with
  | none => (st, ⟨false, none, none⟩)
  | some conv =>
    if conv.ctx_force || conv.total_tokens == 0 then (st, ⟨false, none, none⟩)
    else
      let material := convMessages st cid
      let cres := getOrCreate ⟨st.summaries, st.nextId⟩ "conversation"
        (toString cid) (env.hashMessages material)
        (env.generateSummary material) env.summarizerModel
      let succId := cres.1.nextId
      let successor : Conversation :=
        { id := succId, title := conv.title, provider_id := conv.provider_id,
          model_id := conv.model_id, ctx_warn := false, ctx_force := false,
          total_tokens := 0, created_at := env.now, updated_at := env.now,
          closed_at := none, predecessor := some cid }
      (⟨st.conversations.map (fun c =>
          if c.id == cid
          then { c with ctx_force := true, closed_at := some env.now,
                        updated_at := env.now }
          else c) ++ [successor],
        st.messages,
        cres.1.summaries,
        succId + 1⟩,
       ⟨true, some successor, some cres.2.summary⟩)

/-- Modelled from the spec: create_conversation(title?, provider_id?,
model_id?) inserts a fresh open conversation. -/
def create_conversation (env : Env) (st : ChatState) (title : Option String)
    (provider_id model_id : String) : ChatState × Conversation :=
  let conv : Conversation :=
    { id := st.nextId, title := title, provider_id := provider_id,
      model_id := model_id, ctx_warn := false, ctx_force := false,
      total_tokens := 0, created_at := env.now, updated_at := env.now,
      closed_at := none, predecessor := none }
  (⟨st.conversations ++ [conv], st.messages, st.summaries, st.nextId + 1⟩, conv)

/-- Modelled from the spec: set_model(conversation_id, provider_id?,
model_id?) overrides the provider and model stored on a conversation. -/
def set_model (env : Env) (st : ChatState) (cid : Nat)
    (provider_id model_id : String) : ChatState :=
  ⟨st.conversations.map (fun c =>
     if c.id == cid
     then { c with provider_id := provider_id, model_id := model_id,
                   updated_at := env.now }
     else c),
   st.messages, st.summaries, st.nextId⟩

/-- One operation of the conversation lifecycle visible to callers. -/
inductive ChatOp where
  | appendOp (cid : Nat) (content role : String)
  | forceRolloverOp (cid : Nat)
  | createConversationOp (title : Option String) (provider_id model_id : String)
  | setModelOp (cid : Nat) (provider_id model_id : String)
  deriving Repr

/-- Apply one chat operation; a failed append leaves the state unchanged
(errors apply no effects, spec section 7). -/
def applyChatOp (env : Env) (st : ChatState) : ChatOp → ChatState
  | .appendOp cid content role =>
    match appendAndMaybeRollover env st cid content role with
    | .ok r => r.1
    | .error _ => st
  | .forceRolloverOp cid => (force_rollover env st cid).1
  | .createConversationOp title pid mid => (create_conversation env st title pid mid).1
  | .setModelOp cid pid mid => set_model env st cid pid mid

/-- Apply a whole sequence of chat operations in order. -/
def applyChatOps (env : Env) (st : ChatState) (ops : List ChatOp) : ChatState :=
  ops.foldl (applyChatOp env) st

/-- Claim C1: a successful append persists the triggering message exactly
once — exactly one message row is added, attached to the predecessor when
no rollover occurred and to the freshly created successor when the append
itself caused the rollover; it is never lost and never duplicated. -/
theorem append_persists_message_exactly_once (env : Env) (st : ChatState)
    (cid : Nat) (content role : String) (st' : ChatState) (r : AppendResult)
    (h : appendAndMaybeRollover env st cid content role = .ok (st', r)) :
    r.message.body = content ∧ r.message.role = role ∧
    st'.messages = st.messages ++ [r.message] ∧
    (r.rolled = false → r.message.conversation_id = cid ∧ r.new_conversation = none) ∧
    (r.rolled = true → ∃ nc, r.new_conversation = some nc ∧
      r.message.conversation_id = nc.id ∧ nc.predecessor = some cid) := by
  unfold appendAndMaybeRollover at h
  rcases hfind : findConv st cid with _ | conv
  · rw [hfind] at h; exact absurd h (by simp)
  rw [hfind] at h
  dsimp only at h
  by_cases hcf : conv.ctx_force = true
  · rw [if_pos hcf] at h; exact absurd h (by simp)
  rw [if_neg hcf] at h
  by_cases hroll : env.forceRatio.reached (conv.total_tokens + env.tokenEst content)
      env.contextWindow = true
  · rw [if_pos hroll] at h
    by_cases hbig : env.forceRatio.reached (env.tokenEst content) env.contextWindow = true
    · rw [if_pos hbig] at h; exact absurd h (by simp)
    rw [if_neg hbig] at h
    simp only [Except.ok.injEq, Prod.mk.injEq] at h
    obtain ⟨hst, hr⟩ := h
    subst hst
    subst hr
    refine ⟨rfl, rfl, rfl, by simp, ?_⟩
    intro _
    exact ⟨_, rfl, rfl, rfl⟩
  · rw [if_neg hroll] at h
    simp only [Except.ok.injEq, Prod.mk.injEq] at h
    obtain ⟨hst, hr⟩ := h
    subst hst
    subst hr
    refine ⟨rfl, rfl, rfl, by simp, ?_⟩
    intro hcontra
    simp at hcontra

/-- Looking a conversation up by id commutes with mapping an id-preserving
row update over the table. -/
theorem find?_conv_map (l : List Conversation) (f : Conversation → Conversation)
    (hid : ∀ x, (f x).id = x.id) (cid : Nat) :
    (l.map f).find? (fun c => c.id == cid) =
      (l.find? (fun c => c.id == cid)).map f := by
  rw [List.find?_map]
  have hp : ((fun c => c.id == cid) ∘ f) = (fun c : Conversation => c.id == cid) := by
    funext x
    simp [Function.comp, hid]
  rw [hp]

/-- A successful lookup in the left part of an appended table is the lookup
in the whole table. -/
theorem find?_append_some {α : Type} (l1 l2 : List α) (p : α → Bool) (x : α)
    (h : l1.find? p = some x) : (l1 ++ l2).find? p = some x := by
  rw [List.find?_append, h]
  rfl

/-- Shape of the conversations table after a successful append: an
id-preserving per-row update that never clears ctx_force, possibly followed
by one appended successor row. -/
theorem append_ok_conversations_shape (env : Env) (st : ChatState) (cid : Nat)
    (content role : String) (st' : ChatState) (r : AppendResult)
    (h : appendAndMaybeRollover env st cid content role = .ok (st', r)) :
    ∃ f : Conversation → Conversation,
      (∀ x, (f x).id = x.id) ∧
      (∀ x, x.ctx_force = true → (f x).ctx_force = true) ∧
      (st'.conversations = st.conversations.map f ∨
       ∃ nc, st'.conversations = st.conversations.map f ++ [nc]) := by
  unfold appendAndMaybeRollover at h
  rcases hfind : findConv st cid with _ | conv
  · rw [hfind] at h; exact absurd h (by simp)
  rw [hfind] at h
  dsimp only at h
  by_cases hcf : conv.ctx_force = true
  · rw [if_pos hcf] at h; exact absurd h (by simp)
  rw [if_neg hcf] at h
  by_cases hroll : env.forceRatio.reached (conv.total_tokens + env.tokenEst content)
      env.contextWindow = true
  · rw [if_pos hroll] at h
    by_cases hbig : env.forceRatio.reached (env.tokenEst content) env.contextWindow = true
    · rw [if_pos hbig] at h; exact absurd h (by simp)
    rw [if_neg hbig] at h
    simp only [Except.ok.injEq, Prod.mk.injEq] at h
    obtain ⟨hst, _⟩ := h
    subst hst
    refine ⟨_, ?_, ?_, Or.inr ⟨_, rfl⟩⟩
    · intro x
      by_cases hx : (x.id == cid) = true <;> simp [hx]
    · intro x hx
      by_cases hxc : (x.id == cid) = true <;> simp [hxc, hx]
  · rw [if_neg hroll] at h
    simp only [Except.ok.injEq, Prod.mk.injEq] at h
    obtain ⟨hst, _⟩ := h
    subst hst
    refine ⟨_, ?_, ?_, Or.inl rfl⟩
    · intro x
      by_cases hx : (x.id == cid) = true <;> simp [hx]
    · intro x hx
      by_cases hxc : (x.id == cid) = true <;> simp [hxc, hx]

/-- No chat operation ever clears ctx_force: a closed conversation stays
closed across every single operation. -/
theorem applyChatOp_preserves_ctx_force (env : Env) (st : ChatState)
    (op : ChatOp) (cid : Nat) (c : Conversation)
    (h : findConv st cid = some c) (hc : c.ctx_force = true) :
    ∃ c', findConv (applyChatOp env st op) cid = some c' ∧ c'.ctx_force = true := by
  cases op with
  | appendOp cid' content role =>
    dsimp only [applyChatOp]
    cases happ : appendAndMaybeRollover env st cid' content role with
    | error e => exact ⟨c, h, hc⟩
    | ok pr =>
      obtain ⟨f, hid, hforce, hshape⟩ :=
        append_ok_conversations_shape env st cid' content role pr.1 pr.2 (by rw [happ])
      rcases hshape with hs | ⟨nc, hs⟩
      · refine ⟨f c, ?_, hforce c hc⟩
        unfold findConv at h ⊢
        rw [hs, find?_conv_map _ f hid, h]
        rfl
      · refine ⟨f c, ?_, hforce c hc⟩
        unfold findConv at h ⊢
        rw [hs]
        apply find?_append_some
        rw [find?_conv_map _ f hid, h]
        rfl
  | forceRolloverOp cid' =>
    dsimp only [applyChatOp]
    unfold force_rollover
    rcases hfind : findConv st cid' with _ | conv
    · exact ⟨c, h, hc⟩
    dsimp only
    by_cases hstop : (conv.ctx_force || conv.total_tokens == 0) = true
    · rw [if_pos hstop]
      exact ⟨c, h, hc⟩
    rw [if_neg hstop]
    dsimp only
    refine ⟨(fun x => if (x.id == cid') = true
      then { x with ctx_force := true, closed_at := some env.now,
                    updated_at := env.now } else x) c, ?_, ?_⟩
    · unfold findConv at h ⊢
      apply find?_append_some
      rw [find?_conv_map _ _ ?_ cid, h]
      · rfl
      · intro x
        by_cases hx : (x.id == cid') = true <;> simp [hx]
    · by_cases hx : (c.id == cid') = true <;> simp [hx, hc]
  | createConversationOp title pid mid =>
    dsimp only [applyChatOp, create_conversation]
    refine ⟨c, ?_, hc⟩
    unfold findConv at h ⊢
    exact find?_append_some _ _ _ _ h
  | setModelOp cid' pid mid =>
    dsimp only [applyChatOp, set_model]
    refine ⟨(fun x => if (x.id == cid') = true
      then { x with provider_id := pid, model_id := mid,
                    updated_at := env.now } else x) c, ?_, ?_⟩
    · unfold findConv at h ⊢
      rw [find?_conv_map _ _ ?_ cid, h]
      · rfl
      · intro x
        by_cases hx : (x.id == cid') = true <;> simp [hx]
    · by_cases hx : (c.id == cid') = true <;> simp [hx, hc]

/-- Reaching a ratio threshold is monotone in the token total. -/
theorem DecimalRatio.reached_mono (r : DecimalRatio) (t t' cw : Nat)
    (h : r.reached t cw = true) (hle : t ≤ t') : r.reached t' cw = true := by
  unfold DecimalRatio.reached at h ⊢
  rw [decide_eq_true_eq] at h ⊢
  calc r.mantissa * cw ≤ t * 10 ^ r.scale := h
    _ ≤ t' * 10 ^ r.scale := Nat.mul_le_mul_right _ hle

/-- Claim C2: once a conversation has ctx_force = true, then after any
further sequence of chat operations whatsoever it is still found with
ctx_force = true, a fresh append on it fails with the closed-conversation
error, and that failed append applies no effect to the state. -/
theorem closed_conversation_rejects_appends (env : Env) (st : ChatState)
    (cid : Nat) (c : Conversation) (h : findConv st cid = some c)
    (hc : c.ctx_force = true) (ops : List ChatOp) (content role : String) :
    ∃ c', findConv (applyChatOps env st ops) cid = some c' ∧
      c'.ctx_force = true ∧
      appendAndMaybeRollover env (applyChatOps env st ops) cid content role =
        .error .closedConversation ∧
      applyChatOp env (applyChatOps env st ops) (.appendOp cid content role) =
        applyChatOps env st ops := by
  induction ops generalizing st c with
  | nil =>
    simp only [applyChatOps, List.foldl_nil]
    have hrej : appendAndMaybeRollover env st cid content role =
        .error .closedConversation := by
      unfold appendAndMaybeRollover
      rw [h]
      dsimp only
      rw [if_pos hc]
    refine ⟨c, h, hc, hrej, ?_⟩
    dsimp only [applyChatOp]
    rw [hrej]
  | cons op rest ih =>
    obtain ⟨c', h', hc'⟩ := applyChatOp_preserves_ctx_force env st op cid c h hc
    simpa only [applyChatOps, List.foldl_cons] using
      ih (applyChatOp env st op) c' h' hc'

/-- Claim C3: rollover chaining is capped at one hop per append call.  When
the message alone already reaches the force threshold of a fresh context,
an append to an open conversation fails with the terminal rollover-overflow
error instead of chaining; and whenever an append does roll over, the
returned successor is strictly below the force threshold, so it could not
immediately roll over again. -/
theorem rollover_capped_at_one_hop (env : Env) (st : ChatState) (cid : Nat)
    (content role : String) :
    (∀ conv, findConv st cid = some conv → conv.ctx_force = false →
      env.forceRatio.reached (env.tokenEst content) env.contextWindow = true →
      appendAndMaybeRollover env st cid content role = .error .rolloverOverflow) ∧
    (∀ st' r nc, appendAndMaybeRollover env st cid content role = .ok (st', r) →
      r.rolled = true → r.new_conversation = some nc →
      env.forceRatio.reached nc.total_tokens env.contextWindow = false) := by
  constructor
  · intro conv hfind hopen hbig
    unfold appendAndMaybeRollover
    rw [hfind]
    dsimp only
    rw [if_neg (by simp [hopen])]
    rw [if_pos (env.forceRatio.reached_mono _ _ _ hbig (Nat.le_add_left _ _))]
    rw [if_pos hbig]
  · intro st' r nc h hrolled hnc
    unfold appendAndMaybeRollover at h
    rcases hfind : findConv st cid with _ | conv
    · rw [hfind] at h; exact absurd h (by simp)
    rw [hfind] at h
    dsimp only at h
    by_cases hcf : conv.ctx_force = true
    · rw [if_pos hcf] at h; exact absurd h (by simp)
    rw [if_neg hcf] at h
    by_cases hroll : env.forceRatio.reached (conv.total_tokens + env.tokenEst content)
        env.contextWindow = true
    · rw [if_pos hroll] at h
      by_cases hbig : env.forceRatio.reached (env.tokenEst content) env.contextWindow = true
      · rw [if_pos hbig] at h; exact absurd h (by simp)
      rw [if_neg hbig] at h
      simp only [Except.ok.injEq, Prod.mk.injEq] at h
      obtain ⟨_, hr⟩ := h
      subst hr
      simp only [Option.some.injEq] at hnc
      subst hnc
      exact Bool.not_eq_true _ |>.mp hbig
    · rw [if_neg hroll] at h
      simp only [Except.ok.injEq, Prod.mk.injEq] at h
      obtain ⟨_, hr⟩ := h
      subst hr
      simp at hrolled

/-- Claim C8: with the default ratios 0.75 and 0.9 from the migration and a
1000-token context window, an append that brings the running total to at
least 750 but under 900 tokens succeeds with warn = true and rolled =
false, sets ctx_warn on the conversation, and leaves it open (ctx_force
still false, closed_at still unset) and writable. -/
theorem warn_band_append (env : Env) (st : ChatState) (cid : Nat)
    (conv : Conversation) (content role : String)
    (hwr : env.warnRatio = defaultWarnRatio)
    (hfr : env.forceRatio = defaultForceRatio)
    (hcw : env.contextWindow = 1000)
    (hfind : findConv st cid = some conv)
    (hopen : conv.ctx_force = false)
    (hclosed : conv.closed_at = none)
    (hlo : 750 ≤ conv.total_tokens + env.tokenEst content)
    (hhi : conv.total_tokens + env.tokenEst content < 900) :
    ∃ st' r c', appendAndMaybeRollover env st cid content role = .ok (st', r) ∧
      r.warn = true ∧ r.rolled = false ∧ r.new_conversation = none ∧
      r.total_tokens = conv.total_tokens + env.tokenEst content ∧
      findConv st' cid = some c' ∧ c'.ctx_warn = true ∧
      c'.ctx_force = false ∧ c'.closed_at = none := by
  have hten : (10 : Nat) ^ (1 : Nat) = 10 := by norm_num
  have hhundred : (10 : Nat) ^ (2 : Nat) = 100 := by norm_num
  have hforce : env.forceRatio.reached (conv.total_tokens + env.tokenEst content)
      env.contextWindow = false := by
    rw [hfr, hcw]
    unfold defaultForceRatio DecimalRatio.reached
    rw [decide_eq_false_iff_not]
    intro hcontra
    dsimp only at hcontra
    rw [hten] at hcontra
    omega
  have hwarn : env.warnRatio.reached (conv.total_tokens + env.tokenEst content)
      env.contextWindow = true := by
    rw [hwr, hcw]
    unfold defaultWarnRatio DecimalRatio.reached
    rw [decide_eq_true_eq]
    dsimp only
    rw [hhundred]
    omega
  have hidmatch : (conv.id == cid) = true := by
    have h2 : st.conversations.find? (fun c => c.id == cid) = some conv := hfind
    have h3 := List.find?_some h2
    exact h3
  unfold appendAndMaybeRollover
  rw [hfind]
  dsimp only
  rw [if_neg (by simp [hopen])]
  rw [if_neg (by simp [hforce])]
  refine ⟨_, _,
    { conv with total_tokens := conv.total_tokens + env.tokenEst content,
                ctx_warn := env.warnRatio.reached
                  (conv.total_tokens + env.tokenEst content) env.contextWindow,
                updated_at := env.now },
    rfl, ?_, rfl, rfl, rfl, ?_, ?_, ?_, ?_⟩
  · exact hwarn
  · unfold findConv at hfind ⊢
    dsimp only
    rw [find?_conv_map _ _ ?_ cid, hfind]
    · dsimp only [Option.map]
      rw [if_pos hidmatch]
    · intro x
      by_cases hx : (x.id == cid) = true <;> simp [hx]
  · dsimp only
    exact hwarn
  · dsimp only
    exact hopen
  · dsimp only
    exact hclosed

/-- A concrete environment with the migration-default ratios, a 1000-token
window, and a constant 10-token estimator. -/
def demoEnv : Env :=
  { tokenEst := fun _ => 10, hashMessages := fun _ => "hash",
    generateSummary := fun _ => "generated summary",
    warnRatio := defaultWarnRatio, forceRatio := defaultForceRatio,
    contextWindow := 1000, summarizerModel := "summarizer", now := 7 }

/-- The same environment with a 950-token estimator, so a single message
already reaches the force threshold of a fresh context. -/
def demoEnvBig : Env := { demoEnv with tokenEst := fun _ => 950 }

/-- An open conversation sitting at 750 tokens. -/
def demoConv : Conversation :=
  { id := 0, title := none, provider_id := "ollama", model_id := "llama3",
    ctx_warn := false, ctx_force := false, total_tokens := 750,
    created_at := 0, updated_at := 0, closed_at := none, predecessor := none }

/-- A chat state holding just that conversation. -/
def demoChatState : ChatState := ⟨[demoConv], [], [], 1⟩

/-- A conversation already closed by rollover. -/
def demoClosedConv : Conversation :=
  { demoConv with id := 1, ctx_force := true, closed_at := some 3 }

/-- A chat state holding just the closed conversation. -/
def demoClosedState : ChatState := ⟨[demoClosedConv], [], [], 2⟩

/-- The message row the demo append persists. -/
def demoAppendMsg : Message := ⟨1, 0, "user", "hello", 10, 7⟩

/-- The chat state after the demo append. -/
def demoAppendState : ChatState :=
  ⟨[{ demoConv with total_tokens := 760, ctx_warn := true, updated_at := 7 }],
   [demoAppendMsg], [], 2⟩

/-- The append result of the demo append. -/
def demoAppendResult : AppendResult :=
  { message := demoAppendMsg, warn := true, rolled := false,
    new_conversation := none, summary := none, total_tokens := 760 }

/-- Witness for claim C1: the exactly-once persistence property evaluated
on a concrete append that does not roll over. -/
theorem append_persists_message_exactly_once_witness :
    appendAndMaybeRollover demoEnv demoChatState 0 "hello" "user" =
      .ok (demoAppendState, demoAppendResult) ∧
    (demoAppendResult.message.body = "hello" ∧
     demoAppendResult.message.role = "user" ∧
     demoAppendState.messages = demoChatState.messages ++ [demoAppendResult.message] ∧
     (demoAppendResult.rolled = false → demoAppendResult.message.conversation_id = 0 ∧
       demoAppendResult.new_conversation = none) ∧
     (demoAppendResult.rolled = true → ∃ nc,
       demoAppendResult.new_conversation = some nc ∧
       demoAppendResult.message.conversation_id = nc.id ∧
       nc.predecessor = some 0)) :=
  ⟨rfl,
   append_persists_message_exactly_once demoEnv demoChatState 0 "hello" "user"
     demoAppendState demoAppendResult rfl⟩

/-- Witness for claim C2: the closed demo conversation still rejects an
append after a further operation has run. -/
theorem closed_conversation_rejects_appends_witness :
    (findConv demoClosedState 1 = some demoClosedConv ∧
     demoClosedConv.ctx_force = true) ∧
    (∃ c', findConv (applyChatOps demoEnv demoClosedState
        [.createConversationOp none "openai" "gpt-4o"]) 1 = some c' ∧
      c'.ctx_force = true ∧
      appendAndMaybeRollover demoEnv (applyChatOps demoEnv demoClosedState
        [.createConversationOp none "openai" "gpt-4o"]) 1 "hi" "user" =
        .error .closedConversation ∧
      applyChatOp demoEnv (applyChatOps demoEnv demoClosedState
        [.createConversationOp none "openai" "gpt-4o"]) (.appendOp 1 "hi" "user") =
        applyChatOps demoEnv demoClosedState
          [.createConversationOp none "openai" "gpt-4o"]) :=
  ⟨⟨rfl, rfl⟩,
   closed_conversation_rejects_appends demoEnv demoClosedState 1 demoClosedConv
     rfl rfl [.createConversationOp none "openai" "gpt-4o"] "hi" "user"⟩

/-- Witness for claim C3: a 950-token message into a 1000-token window is
rejected as rollover overflow rather than chained. -/
theorem rollover_capped_at_one_hop_witness :
    (findConv demoChatState 0 = some demoConv ∧ demoConv.ctx_force = false ∧
     demoEnvBig.forceRatio.reached (demoEnvBig.tokenEst "big message")
       demoEnvBig.contextWindow = true) ∧
    appendAndMaybeRollover demoEnvBig demoChatState 0 "big message" "user" =
      .error .rolloverOverflow :=
  ⟨⟨rfl, rfl, by decide⟩,
   (rollover_capped_at_one_hop demoEnvBig demoChatState 0 "big message" "user").1
     demoConv rfl rfl (by decide)⟩

/-- Witness for claim C8: the warn-band scenario evaluated on the demo
conversation, bringing the total to 760 of 1000 tokens. -/
theorem warn_band_append_witness :
    (demoEnv.warnRatio = defaultWarnRatio ∧ demoEnv.forceRatio = defaultForceRatio ∧
     demoEnv.contextWindow = 1000 ∧
     findConv demoChatState 0 = some demoConv ∧ demoConv.ctx_force = false ∧
     demoConv.closed_at = none ∧
     750 ≤ demoConv.total_tokens + demoEnv.tokenEst "x" ∧
     demoConv.total_tokens + demoEnv.tokenEst "x" < 900) ∧
    (∃ st' r c', appendAndMaybeRollover demoEnv demoChatState 0 "x" "user" =
        .ok (st', r) ∧
      r.warn = true ∧ r.rolled = false ∧ r.new_conversation = none ∧
      r.total_tokens = demoConv.total_tokens + demoEnv.tokenEst "x" ∧
      findConv st' 0 = some c' ∧ c'.ctx_warn = true ∧
      c'.ctx_force = false ∧ c'.closed_at = none) :=
  ⟨⟨rfl, rfl, rfl, rfl, rfl, rfl, by decide, by decide⟩,
   warn_band_append demoEnv demoChatState 0 demoConv "x" "user"
     rfl rfl rfl rfl rfl rfl (by decide) (by decide)⟩

/-- Provider row, mirroring the ai_providers table (id, kind, display_name,
description, base_url, default_model, models_json, capabilities_json,
requires_api_key). -/
structure AiProvider where
  id : String
  kind : String
  display_name : String
  description : Option String
  base_url : Option String
  default_model : Option String
  models : List String
  capability_tags : List String
  requires_api_key : Bool
  deriving Repr, DecidableEq

/-- Provider descriptor returned to callers, mirroring the AiProviderInfo
interface of ui/src/lib/api.ts: the stored row plus the computed
has_credentials flag. -/
structure AiProviderInfo where
  id : String
  kind : String
  display_name : String
  description : Option String
  base_url : Option String
  default_model : Option String
  models : List String
  capability_tags : List String
  requires_api_key : Bool
  has_credentials : Bool
  deriving Repr, DecidableEq

/-- Runtime event row, mirroring the event_log table of
migrations/0001_init.sql and the AiRuntimeEvent interface of
ui/src/lib/api.ts. -/
structure RuntimeEvent where
  id : Nat
  ts : Nat
  level : String
  code : Option String
  message : String
  explain : Option String
  deriving Repr, DecidableEq

/-- Router-visible persistent state: provider and credential rows, the
runtime event log, and the job/message/summary tables a live call could
have side effects on. -/
structure RouterState where
  providers : List AiProvider
  credentials : List (String × String)
  events : List RuntimeEvent
  jobs : List Job
  messages : List Message
  summaries : List Summary
  nextId : Nat
  deriving Repr, DecidableEq

/-- Errors a provider invocation can surface: validation of the provider
id, or a configuration error for a provider that requires an API key and
has no stored credential. -/
inductive AiError where
  | validation (msg : String)
  | missingCredentials (provider_id : String)
  deriving Repr, DecidableEq

/-- Whether a credential row is stored for the provider (the
has_credentials flag of the provider descriptor). -/
def hasCredentials (rs : RouterState) (pid : String) : Bool :=
  rs.credentials.any (fun kv => kv.1 == pid)

/-- Modelled from the spec: list_providers() returns every configured
provider for configuration purposes, including ones that cannot currently
serve a live call, with has_credentials computed from the credentials
table. -/
def list_providers (rs : RouterState) : List AiProviderInfo :=
  rs.providers.map (fun p =>
    { id := p.id, kind := p.kind, display_name := p.display_name,
      description := p.description, base_url := p.base_url,
      default_model := p.default_model, models := p.models,
      capability_tags := p.capability_tags,
      requires_api_key := p.requires_api_key,
      has_credentials := hasCredentials rs p.id })

/-- A provider is fully configured for a live call when it either needs no
API key or has a stored credential. -/
def providerConfigured (rs : RouterState) (p : AiProvider) : Bool :=
  !p.requires_api_key || hasCredentials rs p.id

/-- Modelled from the spec: resolve(explicit_provider?,
conversation_default?, process_default?) walks the resolution order and
returns the first candidate that names an existing, fully configured
provider (credentials present if required). -/
def resolve (rs : RouterState)
    (explicit conversation_default process_default : Option String) :
    Option String :=
  (((explicit.toList ++ conversation_default.toList ++ process_default.toList).filterMap
      (fun pid => rs.providers.find? (fun p => p.id == pid))).find?
    (fun p => providerConfigured rs p)).map (fun p => p.id)

/-- Modelled from the spec: routing a live chat/append call to one
provider.  An unknown provider id is a validation error with no side
effects; a provider that requires an API key and has no stored credential
is rejected with a config error and exactly one structured runtime event
carrying the stable code AI-0100 (the code the API documentation assigns to
ai_chat failures), touching no other table; otherwise the opaque provider
reply is returned unchanged. -/
def invoke_chat (rs : RouterState) (pid : String) (reply : String) (now : Nat) :
    RouterState × Except AiError String :=
  match rs.providers.find? (fun p => p.id == pid) with
  | none => (rs, .error (.validation "unknown provider"))
  | some p =>
    if p.requires_api_key && !hasCredentials rs pid then
      ({ rs with
          events := rs.events ++
            [{ id := rs.nextId, ts := now, level := "error",
               code := some "AI-0100",
               message := "missing credentials for provider",
               explain := some pid }],
          nextId := rs.nextId + 1 },
       .error (.missingCredentials pid))
    else (rs, .ok reply)

/-- Claim C9: a provider that requires an API key and has no stored
credential still appears in list_providers, is never chosen by resolve as
the effective provider, and a call routed to it fails with a config error
that writes exactly one runtime event with the stable code AI-0100 and
creates no job, no message and no summary. -/
theorem unconfigured_provider_never_selected (rs : RouterState)
    (p : AiProvider) (reply : String) (now : Nat)
    (hfind : rs.providers.find? (fun x => x.id == p.id) = some p)
    (hkey : p.requires_api_key = true)
    (hnocred : hasCredentials rs p.id = false) :
    (∃ info, info ∈ list_providers rs ∧ info.id = p.id ∧
      info.requires_api_key = true ∧ info.has_credentials = false) ∧
    (∀ e c d q, resolve rs e c d = some q → q ≠ p.id) ∧
    ((invoke_chat rs p.id reply now).2 = .error (.missingCredentials p.id) ∧
     (invoke_chat rs p.id reply now).1.events = rs.events ++
       [{ id := rs.nextId, ts := now, level := "error", code := some "AI-0100",
          message := "missing credentials for provider", explain := some p.id }] ∧
     (invoke_chat rs p.id reply now).1.jobs = rs.jobs ∧
     (invoke_chat rs p.id reply now).1.messages = rs.messages ∧
     (invoke_chat rs p.id reply now).1.summaries = rs.summaries ∧
     (invoke_chat rs p.id reply now).1.providers = rs.providers ∧
     (invoke_chat rs p.id reply now).1.credentials = rs.credentials) := by
  have hcond : (p.requires_api_key && !hasCredentials rs p.id) = true := by
    rw [hkey, hnocred]
    rfl
  refine ⟨?_, ?_, ?_⟩
  · refine ⟨_, List.mem_map_of_mem _ (List.mem_of_find?_eq_some hfind), rfl, hkey, ?_⟩
    exact hnocred
  · intro e c d q hres
    unfold resolve at hres
    cases hf2 : ((e.toList ++ c.toList ++ d.toList).filterMap
        (fun pid => rs.providers.find? (fun pr => pr.id == pid))).find?
        (fun pr => providerConfigured rs pr) with
    | none => rw [hf2] at hres; simp at hres
    | some q0 =>
      rw [hf2] at hres
      simp only [Option.map_some', Option.some.injEq] at hres
      subst hres
      have hq0conf := List.find?_some hf2
      have hq0mem := List.mem_of_find?_eq_some hf2
      simp only [List.mem_filterMap] at hq0mem
      obtain ⟨pid, _, hpidfind⟩ := hq0mem
      have hq0pid := List.find?_some hpidfind
      have hq0id : q0.id = pid := eq_of_beq hq0pid
      intro heq
      rw [hq0id] at heq
      subst heq
      rw [hfind] at hpidfind
      have hq0p : q0 = p := (Option.some.inj hpidfind).symm
      subst hq0p
      unfold providerConfigured at hq0conf
      rw [hkey, hq0id, hnocred] at hq0conf
      simp at hq0conf
  · unfold invoke_chat
    rw [hfind]
    dsimp only
    rw [if_pos hcond]
    exact ⟨rfl, rfl, rfl, rfl, rfl, rfl, rfl⟩

/-- A cloud provider that requires an API key (the openai descriptor of the
API documentation). -/
def demoCloudProvider : AiProvider :=
  { id := "openai", kind := "cloud", display_name := "OpenAI GPT-4o",
    description := none, base_url := some "https://api.openai.com",
    default_model := some "gpt-4o-mini", models := ["gpt-4o", "gpt-4o-mini"],
    capability_tags := ["chat", "multimodal"], requires_api_key := true }

/-- A local provider that needs no API key. -/
def demoLocalProvider : AiProvider :=
  { id := "ollama", kind := "local", display_name := "Ollama",
    description := none, base_url := some "http://localhost:11434",
    default_model := some "llama3", models := ["llama3"],
    capability_tags := ["chat"], requires_api_key := false }

/-- A router state with both demo providers and no stored credentials. -/
def demoRouterState : RouterState :=
  { providers := [demoCloudProvider, demoLocalProvider], credentials := [],
    events := [], jobs := [], messages := [], summaries := [], nextId := 0 }

/-- Witness for claim C9: on the concrete router state the unconfigured
cloud provider is listed but never resolved, and calling it errors with one
AI-0100 event and no other side effects; resolution concretely falls
through to the configured local provider. -/
theorem unconfigured_provider_never_selected_witness :
    (demoRouterState.providers.find? (fun x => x.id == demoCloudProvider.id) =
      some demoCloudProvider ∧
     demoCloudProvider.requires_api_key = true ∧
     hasCredentials demoRouterState demoCloudProvider.id = false) ∧
    ((∃ info, info ∈ list_providers demoRouterState ∧
        info.id = demoCloudProvider.id ∧ info.requires_api_key = true ∧
        info.has_credentials = false) ∧
     (∀ e c d q, resolve demoRouterState e c d = some q → q ≠ demoCloudProvider.id) ∧
     ((invoke_chat demoRouterState demoCloudProvider.id "reply" 4).2 =
        .error (.missingCredentials demoCloudProvider.id) ∧
      (invoke_chat demoRouterState demoCloudProvider.id "reply" 4).1.events =
        demoRouterState.events ++
          [{ id := demoRouterState.nextId, ts := 4, level := "error",
             code := some "AI-0100", message := "missing credentials for provider",
             explain := some demoCloudProvider.id }] ∧
      (invoke_chat demoRouterState demoCloudProvider.id "reply" 4).1.jobs =
        demoRouterState.jobs ∧
      (invoke_chat demoRouterState demoCloudProvider.id "reply" 4).1.messages =
        demoRouterState.messages ∧
      (invoke_chat demoRouterState demoCloudProvider.id "reply" 4).1.summaries =
        demoRouterState.summaries ∧
      (invoke_chat demoRouterState demoCloudProvider.id "reply" 4).1.providers =
        demoRouterState.providers ∧
      (invoke_chat demoRouterState demoCloudProvider.id "reply" 4).1.credentials =
        demoRouterState.credentials)) ∧
    resolve demoRouterState (some "openai") none (some "ollama") = some "ollama" :=
  ⟨⟨by decide, by decide, by decide⟩,
   unconfigured_provider_never_selected demoRouterState demoCloudProvider "reply" 4
     (by decide) (by decide) (by decide),
   by decide⟩

/-- Logbook row, mirroring the logbook_entries table (id, entry_date
UNIQUE, summary, created_at) and the LogbookEntry interface of
ui/src/lib/api.ts. -/
structure LogbookEntry where
  id : Nat
  entry_date : String
  summary : String
  created_at : Nat
  deriving Repr, DecidableEq

/-- State of the logbook: the logbook_entries rows in insertion order plus
the next fresh row id. -/
structure DigestState where
  logbook : List LogbookEntry
  nextId : Nat
  deriving Repr, DecidableEq

/-- Modelled from the spec: run_daily_digest(date) (the Rust implementation
behind the run_daily_digest IPC command declared in ui/src/lib/api.ts is
not under the available sources).  It writes the derived logbook record for
the date; since logbook_entries.entry_date carries a UNIQUE constraint and
the Timeline UI re-runs the digest for an existing date to refresh it, a
second run for the same date replaces the stored summary of the existing
row instead of inserting a second one.  The generated summary text is an
opaque input. -/
def run_daily_digest (ds : DigestState) (date summaryText : String)
    (now : Nat) : DigestState × LogbookEntry :=
  match ds.logbook.find? (fun e => e.entry_date == date) with
  | some e =>
    ({ ds with logbook := ds.logbook.map (fun x =>
        if x.entry_date == date then { x with summary := summaryText } else x) },
     { e with summary := summaryText })
  | none =>
    let e : LogbookEntry :=
      { id := ds.nextId, entry_date := date, summary := summaryText,
        created_at := now }
    (⟨ds.logbook ++ [e], ds.nextId + 1⟩, e)

/-- Logbook states reachable from the empty store by daily digest runs. -/
inductive DigestReachable : DigestState → Prop where
  | init : DigestReachable ⟨[], 0⟩
  | step (date summaryText : String) (now : Nat) {ds : DigestState} :
      DigestReachable ds →
      DigestReachable (run_daily_digest ds date summaryText now).1

/-- Rewriting summaries in place preserves how many rows carry each date. -/
theorem filter_date_map_update (l : List LogbookEntry) (date s d : String) :
    ((l.map (fun x => if x.entry_date == date
        then { x with summary := s } else x)).filter
      (fun e => e.entry_date == d)).length =
    (l.filter (fun e => e.entry_date == d)).length := by
  rw [List.filter_map]
  rw [List.length_map]
  congr 1
  apply List.filter_congr
  intro x _
  by_cases hx : (x.entry_date == date) = true <;> simp [Function.comp, hx]

/-- Claim C10: in every reachable logbook state there is at most one entry
per date; a digest run for date d leaves exactly one entry for d, and a
second run for the same date updates that entry in place, inserting no new
row. -/
theorem logbook_one_entry_per_date (ds : DigestState) (h : DigestReachable ds)
    (d : String) :
    (ds.logbook.filter (fun e => e.entry_date == d)).length ≤ 1 ∧
    (∀ summaryText now,
      ((run_daily_digest ds d summaryText now).1.logbook.filter
        (fun e => e.entry_date == d)).length = 1 ∧
      ∀ s2 n2,
        (run_daily_digest (run_daily_digest ds d summaryText now).1 d s2 n2).1.logbook.length =
          (run_daily_digest ds d summaryText now).1.logbook.length) := by
  have hinv : ∀ ds0, DigestReachable ds0 → ∀ d0 : String,
      (ds0.logbook.filter (fun e => e.entry_date == d0)).length ≤ 1 := by
    intro ds0 h0
    induction h0 with
    | init => intro d0; simp
    | @step date s n ds1 h1 ih =>
      intro d0
      unfold run_daily_digest
      cases hf : ds1.logbook.find? (fun e => e.entry_date == date) with
      | some e =>
        dsimp only
        rw [filter_date_map_update]
        exact ih d0
      | none =>
        dsimp only
        rw [List.filter_append]
        rw [List.length_append]
        by_cases hd : (date == d0) = true
        · have hd0 : date = d0 := eq_of_beq hd
          subst hd0
          have hnil : ds1.logbook.filter (fun e => e.entry_date == date) = [] := by
            apply List.filter_eq_nil_iff.mpr
            intro a ha
            have := List.find?_eq_none.mp hf a ha
            simpa using this
          rw [hnil]
          simp
        · have hdf : (date == d0) = false := by
            cases hval : (date == d0) with
            | false => rfl
            | true => exact absurd hval hd
          rw [List.filter_singleton]
          dsimp only
          rw [hdf]
          simpa using ih d0
  refine ⟨hinv ds h d, ?_⟩
  intro summaryText now
  have hone : ((run_daily_digest ds d summaryText now).1.logbook.filter
      (fun e => e.entry_date == d)).length = 1 := by
    unfold run_daily_digest
    cases hf : ds.logbook.find? (fun e => e.entry_date == d) with
    | some e =>
      dsimp only
      rw [filter_date_map_update]
      have hmem : e ∈ ds.logbook := List.mem_of_find?_eq_some hf
      have hpe := List.find?_some hf
      have hge : 1 ≤ (ds.logbook.filter (fun e => e.entry_date == d)).length := by
        have : e ∈ ds.logbook.filter (fun e => e.entry_date == d) :=
          List.mem_filter.mpr ⟨hmem, hpe⟩
        exact List.length_pos.mpr (List.ne_nil_of_mem this)
      have hle := hinv ds h d
      omega
    | none =>
      dsimp only
      rw [List.filter_append]
      have hnil : ds.logbook.filter (fun e => e.entry_date == d) = [] := by
        apply List.filter_eq_nil_iff.mpr
        intro a ha
        have := List.find?_eq_none.mp hf a ha
        simpa using this
      rw [hnil]
      simp
  refine ⟨hone, ?_⟩
  intro s2 n2
  have hfind2 : ∃ e2, (run_daily_digest ds d summaryText now).1.logbook.find?
      (fun e => e.entry_date == d) = some e2 := by
    cases hf2 : (run_daily_digest ds d summaryText now).1.logbook.find?
        (fun e => e.entry_date == d) with
    | some e2 => exact ⟨e2, rfl⟩
    | none =>
      exfalso
      have hnil : (run_daily_digest ds d summaryText now).1.logbook.filter
          (fun e => e.entry_date == d) = [] := by
        apply List.filter_eq_nil_iff.mpr
        intro a ha
        have := List.find?_eq_none.mp hf2 a ha
        simpa using this
      rw [hnil] at hone
      simp at hone
  obtain ⟨e2, hf2⟩ := hfind2
  set ds1 := (run_daily_digest ds d summaryText now).1 with hds1
  unfold run_daily_digest
  rw [hf2]
  dsimp only
  rw [List.length_map]

/-- The logbook after one digest run for 2025-01-01. -/
def demoDigestState : DigestState :=
  (run_daily_digest ⟨[], 0⟩ "2025-01-01" "first summary" 9).1

/-- Witness for claim C10: the uniqueness property evaluated on the
concrete logbook; rerunning the digest for 2025-01-01 keeps exactly one
entry for that date and adds no row. -/
theorem logbook_one_entry_per_date_witness :
    DigestReachable demoDigestState ∧
    (demoDigestState.logbook.filter
      (fun e => e.entry_date == "2025-01-01")).length ≤ 1 ∧
    ((run_daily_digest demoDigestState "2025-01-01" "second summary" 10).1.logbook.filter
      (fun e => e.entry_date == "2025-01-01")).length = 1 ∧
    (run_daily_digest (run_daily_digest demoDigestState "2025-01-01" "second summary" 10).1
        "2025-01-01" "third summary" 11).1.logbook.length =
      (run_daily_digest demoDigestState "2025-01-01" "second summary" 10).1.logbook.length :=
  ⟨DigestReachable.step "2025-01-01" "first summary" 9 DigestReachable.init,
   (logbook_one_entry_per_date demoDigestState
     (DigestReachable.step "2025-01-01" "first summary" 9 DigestReachable.init)
     "2025-01-01").1,
   ((logbook_one_entry_per_date demoDigestState
     (DigestReachable.step "2025-01-01" "first summary" 9 DigestReachable.init)
     "2025-01-01").2 "second summary" 10).1,
   ((logbook_one_entry_per_date demoDigestState
     (DigestReachable.step "2025-01-01" "first summary" 9 DigestReachable.init)
     "2025-01-01").2 "second summary" 10).2 "third summary" 11⟩
